import Mathlib

/-!
Verification of the staff-management workflow of this repository
(the StaffManagement page: data loading, search filter, create/update/delete
handlers, and the form state machine), shallowly embedded in Lean.

Strings are modelled as Lean Strings; the JavaScript operations
toLowerCase and includes are embedded as character-list functions below.
-/

/-- Character-list version of a needle-is-at-the-front check:
chPre n h is true when h starts with n. -/
def chPre : List Char → List Char → Bool
  | [], _ => true
  | _ :: _, [] => false
  | a :: as, b :: bs => a == b && chPre as bs

/-- Character-list version of JavaScript String.includes:
chSub n h is true when n occurs contiguously inside h. -/
def chSub (n : List Char) : List Char → Bool
  | [] => chPre n []
  | b :: bs => chPre n (b :: bs) || chSub n bs

/-- JavaScript toLowerCase, modelled per character (ASCII case mapping). -/
def strLower (s : String) : List Char :=
  s.toList.map Char.toLower

/-- One field test of the filter at part_000 line 99:
field.toLowerCase().includes(searchQuery.toLowerCase()). -/
def fieldMatches (f q : String) : Bool :=
  chSub (strLower q) (strLower f)

/-- A staff document as normalized by fetchData (part_000 line 24):
the store identifier plus the eight editable fields. -/
structure StaffRecord where
  id : String
  firstName : String
  lastName : String
  gender : String
  address : String
  mobileNumber : String
  position : String
  department : String
  course : String
deriving Repr, DecidableEq

/-- The filter predicate of filteredStaff (part_000 lines 98-99): the
five displayed fields, tested with a logical OR. -/
def recordMatches (q : String) (r : StaffRecord) : Bool :=
  [r.firstName, r.lastName, r.position, r.department, r.course].any
    (fun f => fieldMatches f q)

/-- filteredStaff (part_000 lines 98-100): keep the records one of whose
five displayed fields contains the query case-insensitively. -/
def filteredStaff (staff : List StaffRecord) (q : String) : List StaffRecord :=
  staff.filter (fun r => recordMatches q r)

/-- Specification-side predicate: q occurs in f as a case-insensitive
substring (an occurrence of the lowered query inside the lowered field). -/
def ContainsCI (f q : String) : Prop :=
  ∃ p s, strLower f = p ++ strLower q ++ s

theorem chPre_iff : ∀ (n h : List Char), chPre n h = true ↔ ∃ s, h = n ++ s
  | [], h => by simp [chPre]
  | a :: as, [] => by
      simp only [chPre, List.cons_append]
      constructor
      · intro hfalse; cases hfalse
      · rintro ⟨s, hs⟩; cases hs
  | a :: as, b :: bs => by
      simp only [chPre, Bool.and_eq_true, beq_iff_eq, List.cons_append]
      constructor
      · rintro ⟨rfl, hp⟩
        obtain ⟨s, rfl⟩ := (chPre_iff as bs).mp hp
        exact ⟨s, rfl⟩
      · rintro ⟨s, hs⟩
        injection hs with h1 h2
        subst h1; subst h2
        exact ⟨rfl, (chPre_iff as (as ++ s)).mpr ⟨s, rfl⟩⟩

theorem chSub_iff : ∀ (n h : List Char), chSub n h = true ↔ ∃ p s, h = p ++ n ++ s
  | n, [] => by
      rw [chSub, chPre_iff]
      constructor
      · rintro ⟨s, hs⟩
        exact ⟨[], s, by simpa using hs⟩
      · rintro ⟨p, s, hs⟩
        have h0 := hs.symm
        simp only [List.append_assoc, List.append_eq_nil] at h0
        exact ⟨s, by simp [h0.2.1, h0.2.2]⟩
  | n, b :: bs => by
      rw [chSub, Bool.or_eq_true, chPre_iff]
      constructor
      · rintro (⟨s, hs⟩ | hsub)
        · exact ⟨[], s, by simpa using hs⟩
        · obtain ⟨p, s, rfl⟩ := (chSub_iff n bs).mp hsub
          exact ⟨b :: p, s, rfl⟩
      · rintro ⟨p, s, hs⟩
        cases p with
        | nil => exact Or.inl ⟨s, by simpa using hs⟩
        | cons c p' =>
          injection hs with h1 h2
          exact Or.inr ((chSub_iff n bs).mpr ⟨p', s, h2⟩)

theorem fieldMatches_iff (f q : String) : fieldMatches f q = true ↔ ContainsCI f q := by
  rw [fieldMatches, chSub_iff]
  exact Iff.rfl

theorem chSub_nil_needle : ∀ h : List Char, chSub [] h = true
  | [] => rfl
  | _ :: bs => by rw [chSub]; simp [chPre]

theorem recordMatches_iff (q : String) (r : StaffRecord) :
    recordMatches q r = true ↔
      ContainsCI r.firstName q ∨ ContainsCI r.lastName q ∨ ContainsCI r.position q ∨
        ContainsCI r.department q ∨ ContainsCI r.course q := by
  simp only [recordMatches, List.any_cons, List.any_nil, Bool.or_eq_true,
    Bool.or_false, fieldMatches_iff]

theorem recordMatches_empty (r : StaffRecord) : recordMatches "" r = true := by
  have hq : strLower "" = [] := rfl
  simp [recordMatches, fieldMatches, hq, chSub_nil_needle]

/-- Claim C1: for every staff list and query, filteredStaff returns exactly
the records in which at least one of firstName, lastName, position,
department, course contains the query as a case-insensitive substring
(logical OR across the five fields), and the empty query returns the list
unchanged. -/
theorem C1_filteredStaff_exact (staff : List StaffRecord) (q : String) :
    (∀ r : StaffRecord, r ∈ filteredStaff staff q ↔
        r ∈ staff ∧ (ContainsCI r.firstName q ∨ ContainsCI r.lastName q ∨
          ContainsCI r.position q ∨ ContainsCI r.department q ∨ ContainsCI r.course q)) ∧
    filteredStaff staff "" = staff := by
  constructor
  · intro r
    rw [filteredStaff, List.mem_filter, recordMatches_iff]
  · exact List.filter_eq_self.mpr (fun r _ => recordMatches_empty r)

/-- A staff document as it actually comes back from the store: any of the
five fields read by the filter may be missing from the document's field
map (undefined after the object spread at part_000 line 24). -/
structure RawStaffRecord where
  firstName : Option String
  lastName : Option String
  position : Option String
  department : Option String
  course : Option String
deriving Repr, DecidableEq

/-- JavaScript Array.some over the five destructured fields
(part_000 line 99): evaluates the callback left to right, short-circuits
at the first match, and throws (none) when it reaches a field that is not
a string, since toLowerCase is then called on undefined. -/
def rawSomeMatches (q : String) : List (Option String) → Option Bool
  | [] => some false
  | none :: _ => none
  | some f :: fs => if fieldMatches f q then some true else rawSomeMatches q fs

/-- staff.filter over raw documents (part_000 lines 98-100): the callback
runs on every element in order and an exception aborts the whole filter. -/
def rawFilteredStaff : List RawStaffRecord → String → Option (List RawStaffRecord)
  | [], _ => some []
  | r :: rs, q =>
    match rawSomeMatches q [r.firstName, r.lastName, r.position, r.department, r.course] with
    | none => none
    | some b =>
      match rawFilteredStaff rs q with
      | none => none
      | some rest => some (if b then r :: rest else rest)

/-- All five fields read by the filter are present as strings. -/
def allFieldsPresent (r : RawStaffRecord) : Bool :=
  r.firstName.isSome && r.lastName.isSome && r.position.isSome &&
    r.department.isSome && r.course.isSome

theorem rawSomeMatches_isSome (q : String) :
    ∀ fs : List (Option String), (∀ f ∈ fs, f.isSome = true) →
      (rawSomeMatches q fs).isSome = true
  | [], _ => rfl
  | none :: fs, h => by
      have := h none (List.mem_cons_self none fs)
      simp [Option.isSome] at this
  | some f :: fs, h => by
      rw [rawSomeMatches]
      by_cases hm : fieldMatches f q = true
      · simp [hm]
      · simp only [Bool.not_eq_true] at hm
        simp only [hm, if_false]
        exact rawSomeMatches_isSome q fs (fun g hg => h g (List.mem_cons_of_mem _ hg))

/-- Claim C9: the filter is total exactly under the precondition that every
record has string values for the five searched fields; a record with any
one of them missing makes the filter computation throw (evaluate to none)
instead of returning a subset, as soon as the fields before the missing one
fail to match the query. -/
theorem C9_rawFilteredStaff_throws :
    (∀ (staff : List RawStaffRecord) (q : String),
        (∀ r ∈ staff, allFieldsPresent r = true) →
        (rawFilteredStaff staff q).isSome = true) ∧
    rawFilteredStaff [⟨none, some "b", some "c", some "d", some "e"⟩] "zz" = none ∧
    rawFilteredStaff [⟨some "a", none, some "c", some "d", some "e"⟩] "zz" = none ∧
    rawFilteredStaff [⟨some "a", some "b", none, some "d", some "e"⟩] "zz" = none ∧
    rawFilteredStaff [⟨some "a", some "b", some "c", none, some "e"⟩] "zz" = none ∧
    rawFilteredStaff [⟨some "a", some "b", some "c", some "d", none⟩] "zz" = none := by
  refine ⟨?_, by decide, by decide, by decide, by decide, by decide⟩
  intro staff q h
  induction staff with
  | nil => rfl
  | cons r rs ih =>
    have hr := h r (List.mem_cons_self r rs)
    have hfields : ∀ f ∈ [r.firstName, r.lastName, r.position, r.department, r.course],
        f.isSome = true := by
      simp only [allFieldsPresent, Bool.and_eq_true] at hr
      intro f hf
      simp only [List.mem_cons, List.not_mem_nil, or_false] at hf
      rcases hf with rfl | rfl | rfl | rfl | rfl
      · exact hr.1.1.1.1
      · exact hr.1.1.1.2
      · exact hr.1.1.2
      · exact hr.1.2
      · exact hr.2
    have h1 := rawSomeMatches_isSome q _ hfields
    have h2 := ih (fun x hx => h x (List.mem_cons_of_mem _ hx))
    rw [rawFilteredStaff]
    obtain ⟨b, hb⟩ := Option.isSome_iff_exists.mp h1
    obtain ⟨rest, hrest⟩ := Option.isSome_iff_exists.mp h2
    rw [hb, hrest]
    rfl

/-- The formData object (part_000 line 15): the eight editable keys, plus
an optional id key, because handleEdit (line 67) copies a whole fetched
record, id included, into formData. -/
structure FieldMap where
  firstName : String
  lastName : String
  gender : String
  address : String
  mobileNumber : String
  position : String
  department : String
  course : String
  idField : Option String
deriving Repr, DecidableEq

/-- The initial and reset value of formData (part_000 lines 15 and 94):
all editable fields empty, no id key. -/
def emptyForm : FieldMap :=
  ⟨"", "", "", "", "", "", "", "", none⟩

/-- One stored document of the Staff collection: its store identifier and
its field map. -/
structure StoreDoc where
  docId : String
  fields : FieldMap
deriving Repr, DecidableEq

def storeIds (s : List StoreDoc) : List String :=
  s.map StoreDoc.docId

/-- Modelled from the spec: the external store's create operation
(addDoc): assigns a new identifier and adds a document with the given
field map; the identifier newId is the store's choice. -/
def addDocOp (s : List StoreDoc) (fm : FieldMap) (newId : String) : List StoreDoc :=
  s ++ [⟨newId, fm⟩]

/-- Modelled from the spec: the external store's update-by-identifier
operation (updateDoc): replaces the listed fields of the document with
that identifier, errors (none) if the identifier is absent. -/
def updateDocOp (s : List StoreDoc) (i : String) (fm : FieldMap) : Option (List StoreDoc) :=
  if (storeIds s).contains i then
    some (s.map (fun d => if d.docId == i then ⟨d.docId, fm⟩ else d))
  else none

/-- Modelled from the spec: the external store's delete-by-identifier
operation (deleteDoc): removes the document with that identifier, errors
(none) if the identifier is absent. -/
def deleteDocOp (s : List StoreDoc) (i : String) : Option (List StoreDoc) :=
  if (storeIds s).contains i then
    some (s.filter (fun d => !(d.docId == i)))
  else none

/-- The pair of form-related state cells: formData and selectedStaff
(part_000 lines 15 and 18). -/
structure FormState where
  formData : FieldMap
  selectedStaff : Option StaffRecord
deriving Repr, DecidableEq

/-- The eight editable fields a change event can target
(part_000 lines 169-195). -/
inductive EditableField
  | firstName | lastName | gender | address | mobileNumber | position | department | course
deriving Repr, DecidableEq

/-- handleChange (part_000 line 46): spread the previous formData and
overwrite the one named editable field. -/
def handleChange (fm : FieldMap) (f : EditableField) (v : String) : FieldMap :=
  match f with
  | .firstName => { fm with firstName := v }
  | .lastName => { fm with lastName := v }
  | .gender => { fm with gender := v }
  | .address => { fm with address := v }
  | .mobileNumber => { fm with mobileNumber := v }
  | .position => { fm with position := v }
  | .department => { fm with department := v }
  | .course => { fm with course := v }

/-- The field map handleEdit loads into formData (part_000 line 67):
the whole fetched record object, its store identifier included. -/
def recordToFieldMap (r : StaffRecord) : FieldMap :=
  ⟨r.firstName, r.lastName, r.gender, r.address, r.mobileNumber,
    r.position, r.department, r.course, some r.id⟩

/-- handleEdit (part_000 lines 66-71): copy the chosen record into
formData and make it the editing target. -/
def handleEdit (_fs : FormState) (r : StaffRecord) : FormState :=
  ⟨recordToFieldMap r, some r⟩

/-- resetForm (part_000 lines 93-96): formData back to the empty
defaults, selectedStaff back to null. -/
def resetForm (_fs : FormState) : FormState :=
  ⟨emptyForm, none⟩

/-- The notification shown by handleSubmit (part_000 lines 57 and 62):
the success message distinguishes updated from added. -/
inductive SaveNotice
  | added | updated | saveError
deriving Repr, DecidableEq

/-- Everything observable about one handleSubmit invocation: the staff
collection afterwards, the form state afterwards, the notification shown,
and whether fetchData was re-invoked. -/
structure SubmitOutcome where
  store : List StoreDoc
  form : FormState
  notice : SaveNotice
  reloaded : Bool
deriving Repr, DecidableEq

/-- handleSubmit (part_000 lines 48-64). envOk models whether the store
call itself succeeds (false = the awaited call throws); newId is the
identifier the store assigns on a create. On success: success
notification, resetForm, fetchData. On any throw: error notification,
no reset, no reload. -/
def handleSubmit (fs : FormState) (s : List StoreDoc) (envOk : Bool) (newId : String) :
    SubmitOutcome :=
  match fs.selectedStaff with
  | some target =>
    match (if envOk then updateDocOp s target.id fs.formData else none) with
    | some s2 => ⟨s2, ⟨emptyForm, none⟩, .updated, true⟩
    | none => ⟨s, fs, .saveError, false⟩
  | none =>
    if envOk then ⟨addDocOp s fs.formData newId, ⟨emptyForm, none⟩, .added, true⟩
    else ⟨s, fs, .saveError, false⟩

/-- The notification shown by handleDelete (part_000 lines 84 and 88),
or no notification at all when the user declines. -/
inductive DeleteNotice
  | deleted | deleteError | noNotice
deriving Repr, DecidableEq

/-- Everything observable about one handleDelete invocation: the staff
collection afterwards, whether a store call was made at all, the
notification shown, and whether fetchData was re-invoked. -/
structure DeleteOutcome where
  store : List StoreDoc
  storeCalled : Bool
  notice : DeleteNotice
  reloaded : Bool
deriving Repr, DecidableEq

/-- handleDelete (part_000 lines 73-91). confirmed is the result of the
blocking yes/no prompt; envOk models whether the store call itself
succeeds. -/
def handleDelete (confirmed : Bool) (envOk : Bool) (s : List StoreDoc)
    (target : StaffRecord) : DeleteOutcome :=
  if confirmed then
    match (if envOk then deleteDocOp s target.id else none) with
    | some s2 => ⟨s2, true, .deleted, true⟩
    | none => ⟨s, true, .deleteError, false⟩
  else ⟨s, false, .noNotice, false⟩

theorem updateDocOp_some (s : List StoreDoc) (i : String) (fm : FieldMap)
    (h : (storeIds s).contains i = true) :
    updateDocOp s i fm =
      some (s.map (fun d => if d.docId == i then ⟨d.docId, fm⟩ else d)) := by
  have h' : i ∈ storeIds s := by simpa using h
  simp [updateDocOp, h']

theorem mem_updateMap (s : List StoreDoc) (i : String) (fm : FieldMap) :
    ∀ d ∈ s.map (fun d => if d.docId == i then (⟨d.docId, fm⟩ : StoreDoc) else d),
      (d.docId = i → d.fields = fm) ∧ (d.docId ≠ i → d ∈ s) := by
  intro d hd
  obtain ⟨a, ha, rfl⟩ := List.mem_map.mp hd
  by_cases hc : a.docId = i
  · subst hc
    simp
  · simp [hc, ha]

theorem storeIds_updateMap (s : List StoreDoc) (i : String) (fm : FieldMap) :
    storeIds (s.map (fun d => if d.docId == i then ⟨d.docId, fm⟩ else d)) = storeIds s := by
  simp only [storeIds, List.map_map]
  refine List.map_congr_left ?_
  intro a _
  by_cases hc : (a.docId == i) = true <;> simp [Function.comp, hc]

theorem storeIds_deleteFilter (s : List StoreDoc) (i : String) :
    (storeIds (s.filter (fun d => !(d.docId == i)))).contains i = false := by
  rw [Bool.eq_false_iff]
  intro hc
  have hmem : i ∈ storeIds (s.filter (fun d => !(d.docId == i))) := by
    simpa using hc
  simp only [storeIds, List.mem_map] at hmem
  obtain ⟨d, hd, hdi⟩ := hmem
  subst hdi
  have hp := (List.mem_filter.mp hd).2
  simp at hp

/-- Claim C3: save with a null editing target creates a new record holding
exactly the submitted field map under the store-assigned identifier; save
with a non-null target overwrites the fields of the record with the
target's identifier, leaves every identifier unchanged, and leaves every
other record untouched. -/
theorem C3_save_semantics (fs : FormState) (s : List StoreDoc) (newId : String)
    (target : StaffRecord) :
    (fs.selectedStaff = none →
      (handleSubmit fs s true newId).store = s ++ [⟨newId, fs.formData⟩]) ∧
    (fs.selectedStaff = some target → (storeIds s).contains target.id = true →
      storeIds (handleSubmit fs s true newId).store = storeIds s ∧
      (∀ d ∈ (handleSubmit fs s true newId).store,
        d.docId = target.id → d.fields = fs.formData) ∧
      (∀ d ∈ (handleSubmit fs s true newId).store, d.docId ≠ target.id → d ∈ s)) := by
  constructor
  · intro h
    simp [handleSubmit, h, addDocOp]
  · intro h hmem
    have hstore : (handleSubmit fs s true newId).store =
        s.map (fun d => if d.docId == target.id then ⟨d.docId, fs.formData⟩ else d) := by
      simp [handleSubmit, h, updateDocOp_some s target.id fs.formData hmem]
    rw [hstore]
    exact ⟨storeIds_updateMap s target.id fs.formData,
      fun d hd => (mem_updateMap s target.id fs.formData d hd).1,
      fun d hd => (mem_updateMap s target.id fs.formData d hd).2⟩

/-- Claim C4: delete requires the blocking confirmation first; on decline
no store call is made, the collection is unchanged and no notification is
shown; on confirm with a successful store call the record with that
identifier is removed, a success notification is shown and the loader is
re-invoked; on confirm with a failing store call an error notification is
shown and no reload happens. -/
theorem C4_delete_semantics (ek : Bool) (s : List StoreDoc) (target : StaffRecord) :
    (handleDelete false ek s target = ⟨s, false, .noNotice, false⟩) ∧
    ((storeIds s).contains target.id = true →
      (handleDelete true true s target).store = s.filter (fun d => !(d.docId == target.id)) ∧
      (storeIds (handleDelete true true s target).store).contains target.id = false ∧
      (handleDelete true true s target).notice = .deleted ∧
      (handleDelete true true s target).reloaded = true) ∧
    (handleDelete true false s target = ⟨s, true, .deleteError, false⟩) ∧
    ((storeIds s).contains target.id = false →
      handleDelete true ek s target = ⟨s, true, .deleteError, false⟩) := by
  refine ⟨rfl, ?_, by simp [handleDelete], ?_⟩
  · intro hmem
    have hmem' : target.id ∈ storeIds s := by simpa using hmem
    have hstore : (handleDelete true true s target).store =
        s.filter (fun d => !(d.docId == target.id)) := by
      simp [handleDelete, deleteDocOp, hmem']
    refine ⟨hstore, ?_, ?_, ?_⟩
    · rw [hstore]; exact storeIds_deleteFilter s target.id
    · simp [handleDelete, deleteDocOp, hmem']
    · simp [handleDelete, deleteDocOp, hmem']
  · intro habs
    have habs' : ¬ target.id ∈ storeIds s := by simpa using habs
    cases ek <;> simp [handleDelete, deleteDocOp, habs']

/-- Claim C5: on a successful save the notification distinguishes added
from updated, the form buffer is reset to the empty defaults, the editing
target is cleared, and the loader is re-invoked; on a failing save an
error notification is shown and form buffer and editing target are left
exactly as they were, with no reload. -/
theorem C5_submit_notifications (fs : FormState) (s : List StoreDoc) (newId : String)
    (target : StaffRecord) :
    (fs.selectedStaff = none →
      handleSubmit fs s true newId =
        ⟨addDocOp s fs.formData newId, ⟨emptyForm, none⟩, .added, true⟩) ∧
    (fs.selectedStaff = some target → (storeIds s).contains target.id = true →
      (handleSubmit fs s true newId).form = ⟨emptyForm, none⟩ ∧
      (handleSubmit fs s true newId).notice = .updated ∧
      (handleSubmit fs s true newId).reloaded = true) ∧
    (handleSubmit fs s false newId = ⟨s, fs, .saveError, false⟩) ∧
    (fs.selectedStaff = some target → (storeIds s).contains target.id = false →
      ∀ ek : Bool, handleSubmit fs s ek newId = ⟨s, fs, .saveError, false⟩) := by
  refine ⟨?_, ?_, ?_, ?_⟩
  · intro h
    simp [handleSubmit, h]
  · intro h hmem
    refine ⟨?_, ?_, ?_⟩ <;>
      simp [handleSubmit, h, updateDocOp_some s target.id fs.formData hmem]
  · cases hsel : fs.selectedStaff <;> simp [handleSubmit, hsel]
  · intro h habs ek
    have habs' : ¬ target.id ∈ storeIds s := by simpa using habs
    cases ek <;> simp [handleSubmit, h, updateDocOp, habs']

def applyChanges (fm : FieldMap) (cs : List (EditableField × String)) : FieldMap :=
  cs.foldl (fun m c => handleChange m c.fst c.snd) fm

theorem handleChange_idField (fm : FieldMap) (f : EditableField) (v : String) :
    (handleChange fm f v).idField = fm.idField := by
  cases f <;> rfl

theorem applyChanges_idField : ∀ (cs : List (EditableField × String)) (fm : FieldMap),
    (applyChanges fm cs).idField = fm.idField
  | [], _ => rfl
  | c :: cs, fm => by
      have h := applyChanges_idField cs (handleChange fm c.fst c.snd)
      simp only [applyChanges, List.foldl_cons] at h ⊢
      rw [h, handleChange_idField]

/-- Claim C10: handleEdit copies the fetched record, store identifier
included, into the form buffer, and no sequence of field edits removes
that id entry; consequently a successful submit in editing state writes a
field map that still carries the id entry (equal to the record's
identifier) into the stored document, on top of the eight editable
fields. -/
theorem C10_update_writes_id (fs : FormState) (r : StaffRecord)
    (cs : List (EditableField × String)) (s : List StoreDoc) (newId : String) :
    (handleEdit fs r).formData.idField = some r.id ∧
    (applyChanges (handleEdit fs r).formData cs).idField = some r.id ∧
    ((storeIds s).contains r.id = true →
      ∀ d ∈ (handleSubmit ⟨applyChanges (handleEdit fs r).formData cs,
          (handleEdit fs r).selectedStaff⟩ s true newId).store,
        d.docId = r.id → d.fields.idField = some r.id) := by
  have hid : (handleEdit fs r).formData.idField = some r.id := rfl
  have happ : (applyChanges (handleEdit fs r).formData cs).idField = some r.id := by
    rw [applyChanges_idField]; exact hid
  refine ⟨hid, happ, ?_⟩
  intro hmem d hd hdi
  have hsel : (handleEdit fs r).selectedStaff = some r := rfl
  have hupd := updateDocOp_some s r.id (applyChanges (handleEdit fs r).formData cs) hmem
  have hstore : (handleSubmit ⟨applyChanges (handleEdit fs r).formData cs,
      (handleEdit fs r).selectedStaff⟩ s true newId).store =
      s.map (fun d => if d.docId == r.id then
        ⟨d.docId, applyChanges (handleEdit fs r).formData cs⟩ else d) := by
    simp only [handleSubmit, hsel, if_true, hupd]
  rw [hstore] at hd
  have := (mem_updateMap s r.id (applyChanges (handleEdit fs r).formData cs) d hd).1 hdi
  rw [this, happ]

/-- A department document as normalized by fetchData (part_000 line 27). -/
structure Department where
  id : String
  name : String
deriving Repr, DecidableEq

/-- A course document of a department's Courses sub-collection
(part_000 line 33). -/
structure Course where
  id : String
  name : String
deriving Repr, DecidableEq

/-- The three pieces of cached state the loader writes: staff,
departments, allCourses (part_000 lines 14, 16, 17); the allCourses
object is an association list keyed by department identifier. -/
structure CacheState where
  staff : List StaffRecord
  departments : List Department
  allCourses : List (String × List Course)
deriving Repr, DecidableEq

/-- The course loop of fetchData (part_000 lines 30-34): fetch each
department's Courses sub-collection in order into a local accumulator;
any failing sub-fetch aborts the loop, discarding the accumulator. -/
def fetchCoursesLoop (rc : String → Option (List Course)) :
    List Department → Option (List (String × List Course))
  | [] => some []
  | d :: ds =>
    match rc d.id with
    | none => none
    | some cs =>
      match fetchCoursesLoop rc ds with
      | none => none
      | some rest => some ((d.id, cs) :: rest)

/-- One fetchData invocation, observed from outside: the cached state
when it finishes, how many error notifications it showed, and the
snapshots a reader can observe while the invocation is suspended at an
await after it has begun writing state (the code awaits the departments
fetch right after setStaff, and awaits each course sub-fetch after
setDepartments, so those snapshots render). -/
structure FetchOutcome where
  final : CacheState
  errCount : Nat
  observed : List CacheState
deriving Repr, DecidableEq

/-- fetchData (part_000 lines 21-40). rs, rd and rc are the results the
store returns for the Staff fetch, the Departments fetch and each
per-department Courses fetch (none models a thrown error). setStaff runs
before the departments fetch is awaited and setDepartments before the
course loop, so each failure path keeps the writes already made; the
single catch shows one error notification. When the departments list is
empty the course loop performs no await, so the snapshot between
setDepartments and setAllCourses is not observed. -/
def fetchData (rs : Option (List StaffRecord)) (rd : Option (List Department))
    (rc : String → Option (List Course)) (st : CacheState) : FetchOutcome :=
  match rs with
  | none => ⟨st, 1, []⟩
  | some ns =>
    let st1 : CacheState := ⟨ns, st.departments, st.allCourses⟩
    match rd with
    | none => ⟨st1, 1, [st1]⟩
    | some ds =>
      let st2 : CacheState := ⟨ns, ds, st.allCourses⟩
      match fetchCoursesLoop rc ds with
      | none => ⟨st2, 1, [st1, st2]⟩
      | some cbd =>
        ⟨⟨ns, ds, cbd⟩, 0,
          st1 :: ((if ds.isEmpty then [] else [st2]) ++ [⟨ns, ds, cbd⟩])⟩

def recA : StaffRecord :=
  ⟨"s1", "Ann", "Ames", "Female", "a st", "111", "Teacher", "D1", "C1"⟩

def recB : StaffRecord :=
  ⟨"s2", "Bob", "Berg", "Male", "b st", "222", "Admin", "D1", "C1"⟩

def deptX : Department := ⟨"D1", "Board Courses"⟩

def deptY : Department := ⟨"D2", "Non-Board Courses"⟩

def courseC1 : Course := ⟨"C1", "BSN"⟩

/-- A cached state left by a previous successful load. -/
def cacheA : CacheState := ⟨[recA], [deptX], [("D1", [courseC1])]⟩

/-- Counterexample to claim C2 as stated: the departments fetch fails,
the single error notification is shown, yet the cached staff list has
already been overwritten by the new staff fetch, so the previous state
was not left completely untouched. -/
theorem C2_cex :
    (fetchData (some [recB]) none (fun _ => none) cacheA).errCount = 1 ∧
    (fetchData (some [recB]) none (fun _ => none) cacheA).final.staff ≠ cacheA.staff := by
  decide

/-- Claim C2 as amended: any retrieval failure aborts the remaining
fetches of that invocation (for a staff-fetch failure the outcome does
not depend on the later fetches at all) and shows exactly one error
notification, but only the pieces not yet refetched are protected: a
staff-fetch failure leaves all three pieces untouched; a departments
failure leaves departments and courses untouched while the staff list
has already been overwritten; a courses failure leaves only the courses
mapping untouched. A fully successful invocation shows no error. -/
theorem C2_fetch_failure_frame (rd rd2 : Option (List Department))
    (rc rc2 : String → Option (List Course)) (st : CacheState)
    (ns : List StaffRecord) (ds : List Department) :
    (fetchData none rd rc st = ⟨st, 1, []⟩ ∧
      fetchData none rd rc st = fetchData none rd2 rc2 st) ∧
    (fetchData (some ns) none rc st =
      ⟨⟨ns, st.departments, st.allCourses⟩, 1, [⟨ns, st.departments, st.allCourses⟩]⟩ ∧
      fetchData (some ns) none rc st = fetchData (some ns) none rc2 st) ∧
    (fetchCoursesLoop rc ds = none →
      fetchData (some ns) (some ds) rc st =
        ⟨⟨ns, ds, st.allCourses⟩, 1,
          [⟨ns, st.departments, st.allCourses⟩, ⟨ns, ds, st.allCourses⟩]⟩) ∧
    (∀ cbd, fetchCoursesLoop rc ds = some cbd →
      (fetchData (some ns) (some ds) rc st).errCount = 0) := by
  refine ⟨⟨rfl, rfl⟩, ⟨rfl, rfl⟩, ?_, ?_⟩
  · intro h
    simp [fetchData, h]
  · intro cbd h
    simp [fetchData, h]

/-- The snapshot a reader observes while the departments fetch of a
reload of cacheA is outstanding: new staff together with the old
departments and the old courses mapping. -/
def mixedSnapshot : CacheState := ⟨[recB], [deptX], [("D1", [courseC1])]⟩

/-- Counterexample to claim C6 as stated: a fully successful fetchData
invocation during which a reader observes a snapshot that mixes the new
staff list with the previous departments list and courses mapping, hence
is neither the previous complete snapshot nor the next one. -/
theorem C6_cex :
    (fetchData (some [recB]) (some [deptY]) (fun _ => some []) cacheA).errCount = 0 ∧
    mixedSnapshot ∈ (fetchData (some [recB]) (some [deptY]) (fun _ => some []) cacheA).observed ∧
    mixedSnapshot ≠ cacheA ∧
    mixedSnapshot ≠ (fetchData (some [recB]) (some [deptY]) (fun _ => some []) cacheA).final := by
  decide

/-- Claim C6 as amended: the three pieces of cached state are not
replaced as one atomic group; each is replaced as its fetch completes.
During a successful invocation the first observable snapshot combines
the new staff list with the old departments and courses, so readers can
observe mixed states; what does hold is that every observed snapshot
already carries the new staff list, that the courses mapping itself is
replaced atomically (readers only ever see the old mapping or the
complete new one, never a partial accumulation), and that the final
state is the complete new snapshot. -/
theorem C6_nonatomic_loader (rc : String → Option (List Course)) (st : CacheState)
    (ns : List StaffRecord) (ds : List Department)
    (cbd : List (String × List Course)) :
    fetchCoursesLoop rc ds = some cbd →
      (fetchData (some ns) (some ds) rc st).observed.head? =
        some ⟨ns, st.departments, st.allCourses⟩ ∧
      (∀ c ∈ (fetchData (some ns) (some ds) rc st).observed,
        c.staff = ns ∧ (c.allCourses = st.allCourses ∨ c.allCourses = cbd)) ∧
      (fetchData (some ns) (some ds) rc st).final = ⟨ns, ds, cbd⟩ ∧
      (fetchData (some ns) (some ds) rc st).errCount = 0 := by
  intro h
  have hobs : (fetchData (some ns) (some ds) rc st).observed =
      ⟨ns, st.departments, st.allCourses⟩ ::
        ((if ds.isEmpty then [] else [⟨ns, ds, st.allCourses⟩]) ++ [⟨ns, ds, cbd⟩]) := by
    simp [fetchData, h]
  refine ⟨by rw [hobs]; rfl, ?_, by simp [fetchData, h], by simp [fetchData, h]⟩
  intro c hc
  rw [hobs] at hc
  by_cases hds : ds.isEmpty
  · simp [hds] at hc
    rcases hc with rfl | rfl
    · exact ⟨rfl, Or.inl rfl⟩
    · exact ⟨rfl, Or.inr rfl⟩
  · simp [hds] at hc
    rcases hc with rfl | rfl | rfl
    · exact ⟨rfl, Or.inl rfl⟩
    · exact ⟨rfl, Or.inl rfl⟩
    · exact ⟨rfl, Or.inr rfl⟩

/-- The amended claim C6 at a concrete successful load of cacheA: the
course loop succeeds, the first observed snapshot mixes the new staff
with the old departments and courses, and the final state is the new
snapshot. -/
theorem C6_nonatomic_loader_witness :
    (fetchData (some [recB]) (some [deptY]) (fun _ => some []) cacheA).observed.head? =
      some ⟨[recB], cacheA.departments, cacheA.allCourses⟩ ∧
    (∀ c ∈ (fetchData (some [recB]) (some [deptY]) (fun _ => some []) cacheA).observed,
      c.staff = [recB] ∧
        (c.allCourses = cacheA.allCourses ∨ c.allCourses = [("D2", [])])) ∧
    (fetchData (some [recB]) (some [deptY]) (fun _ => some []) cacheA).final =
      ⟨[recB], [deptY], [("D2", [])]⟩ ∧
    (fetchData (some [recB]) (some [deptY]) (fun _ => some []) cacheA).errCount = 0 :=
  C6_nonatomic_loader (fun _ => some []) cacheA [recB] [deptY] [("D2", [])] (by decide)

/-- The presence constraints the form markup enforces before handleSubmit
can run (part_000 lines 166-195): the four text inputs and the gender,
position and department selects carry the required attribute, which
blocks submission exactly when the value is the empty string; the course
select carries no required attribute. -/
def formSubmittable (fm : FieldMap) : Bool :=
  !(fm.firstName == "") && !(fm.lastName == "") && !(fm.address == "") &&
    !(fm.mobileNumber == "") && !(fm.gender == "") && !(fm.position == "") &&
    !(fm.department == "")

/-- A field map the form accepts although a department is chosen and the
course is empty. -/
def fmDeptNoCourse : FieldMap :=
  ⟨"Ann", "Ames", "Female", "a st", "111", "Teacher", "D1", "", none⟩

/-- Counterexample to claim C7 as stated: a submittable field map with a
chosen department and an empty course reaches persistence unchanged, so
it is not true that course may be empty only when no department is
chosen. -/
theorem C7_cex :
    formSubmittable fmDeptNoCourse = true ∧
    (handleSubmit ⟨fmDeptNoCourse, none⟩ [] true "n1").store = [⟨"n1", fmDeptNoCourse⟩] ∧
    fmDeptNoCourse.department ≠ "" ∧
    fmDeptNoCourse.course = "" := by
  decide

/-- Claim C7 as amended: every field map that passes the input layer and
reaches persistence has non-empty values for all fields except course;
course is unconstrained and may be empty even when a department is
chosen. The gateway persists the submitted map unchanged. -/
theorem C7_mandatory_fields (fm : FieldMap) (s : List StoreDoc) (newId : String) :
    (formSubmittable fm = true →
      fm.firstName ≠ "" ∧ fm.lastName ≠ "" ∧ fm.gender ≠ "" ∧ fm.address ≠ "" ∧
      fm.mobileNumber ≠ "" ∧ fm.position ≠ "" ∧ fm.department ≠ "") ∧
    (handleSubmit ⟨fm, none⟩ s true newId).store = s ++ [⟨newId, fm⟩] := by
  constructor
  · intro h
    simp only [formSubmittable, Bool.and_eq_true, Bool.not_eq_true', beq_eq_false_iff_ne,
      ne_eq] at h
    exact ⟨h.1.1.1.1.1.1, h.1.1.1.1.1.2, h.1.1.2, h.1.1.1.1.2, h.1.1.1.2, h.1.2, h.2⟩
  · simp [handleSubmit, addDocOp]

/-- The option list of the course select (part_000 line 194):
allCourses[formData.department] || [], one option per course of the
chosen department. -/
def courseOptions (ac : List (String × List Course)) (dept : String) : List Course :=
  match ac.find? (fun p => p.fst == dept) with
  | some p => p.snd
  | none => []

/-- The disabled attribute of the course select (part_000 line 192):
disabled={!formData.department}, so it is disabled exactly when no
department is chosen (the department field is the empty string). -/
def courseDisabled (dept : String) : Bool :=
  dept == ""

/-- Counterexample to claim C8 as stated: choosing department D1, whose
Courses sub-collection is empty, leaves the option list empty but the
course select is not disabled, because the disabled attribute only
tests whether a department is chosen at all. -/
theorem C8_cex :
    courseOptions [("D1", [])] "D1" = [] ∧ courseDisabled "D1" = false := by
  decide

theorem find?_key_append (dept : String) :
    ∀ (pre post : List (String × List Course)) (cs : List Course),
      (∀ q ∈ pre, q.fst ≠ dept) →
      (pre ++ (dept, cs) :: post).find? (fun p => p.fst == dept) = some (dept, cs)
  | [], post, cs, _ => by simp
  | q :: pre, post, cs, h => by
      have hq : ((fun p => p.fst == dept) q) = false := by
        simpa using h q (List.mem_cons_self q pre)
      rw [List.cons_append, List.find?_cons_of_neg _ (by simp [hq]),
        find?_key_append dept pre post cs (fun x hx => h x (List.mem_cons_of_mem _ hx))]

/-- Claim C8 as amended: selecting a department whose Courses
sub-collection is empty leaves the course option list empty, so no
course can be chosen; but the course field's disabled attribute is false
whenever any department is chosen — it is true exactly when the
department field is empty, not when the chosen department has zero
courses. -/
theorem C8_empty_courses (ac pre post : List (String × List Course)) (dept : String) :
    (ac = pre ++ (dept, []) :: post → (∀ q ∈ pre, q.fst ≠ dept) →
      courseOptions ac dept = []) ∧
    (courseDisabled dept = true ↔ dept = "") := by
  constructor
  · intro hac hpre
    subst hac
    rw [courseOptions, find?_key_append dept pre post [] hpre]
  · simp [courseDisabled]
